import Mathlib

/-!
Verification development for the stream-action routing library
(stimulus-stream-actions): a shallow embedding of
src/stimulus-stream-actions.ts and proofs about its registry,
dispatch loop, action-map merging, default suppression and
attribute-view behaviour.

Modelling conventions:
- JS values that may be undefined or null are embedded as Option.
- JS objects used as string-keyed maps are embedded as insertion-ordered
  association lists in which a later binding overwrites an earlier one;
  objGet returns the last binding for a key, matching JS property
  semantics after object spread.
- console.warn / console.error calls are recorded as Diagnostic values
  carrying the template text of the call site (the quote characters that
  surround interpolated fragments in the source templates are omitted
  from the embedded strings).
- A handler property on a controller is embedded as PropValue: a function
  that either returns or throws when called, a truthy non-function value,
  or a falsy value (an absent property behaves like a falsy one).
- A null action descriptor gets its own constructor: it passes the
  typeof object test yet is falsy, and reading its method property in
  the validation loops throws a TypeError; an exception escaping an
  entry point is recorded in the thrown field of its outcome.
- Machine-level event plumbing (addEventListener / removeEventListener)
  is embedded as subscription counters on the registry state.
-/

namespace StreamActionsLib

/-- Last-binding-wins lookup in a JS-object-like association list. -/
def objGet {α : Type} (l : List (String × α)) (k : String) : Option α :=
  (l.reverse.find? (fun p => p.1 == k)).map (fun p => p.2)

/-- Truthiness of a JS string that may be undefined or null:
undefined, null and the empty string are falsy. -/
def truthyOptStr : Option String → Bool
  | none => false
  | some s => !s.isEmpty

/-- Embedding of a declared stream action configuration value as it can
actually occur at runtime: a string, a non-null object (whose method
property may be missing and whose preventDefault property may be
missing), the null value (which satisfies the typeof object test but is
falsy and whose property reads throw), or a value that is neither a
string nor an object (for example a number or undefined), which only
matters to validation and truthiness. -/
inductive StreamActionConfig where
  | str (s : String)
  | obj (method : Option String) (preventDefault : Option Bool)
  | nullVal
  | invalid (truthy : Bool)
deriving DecidableEq

/-- JS truthiness of a configuration value: an empty string is falsy, a
non-null object is always truthy, null is falsy, other values carry
their own truthiness. -/
def configTruthy : StreamActionConfig → Bool
  | .str s => !s.isEmpty
  | .obj _ _ => true
  | .nullVal => false
  | .invalid t => t

/-- The method name extracted in the dispatch loop: the string itself for
a string config, config.method otherwise (undefined when missing). The
dispatch loop applies this only to truthy configurations, so the null
case (whose property read would throw) is unreachable there; its total
extension returns none. -/
def resolvedMethodName : StreamActionConfig → Option String
  | .str s => some s
  | .obj m _ => m
  | .nullVal => none
  | .invalid _ => none

/-- The preventDefault flag extracted in the dispatch loop: true for a
string config, config.preventDefault with nullish-coalescing default true
otherwise. As for resolvedMethodName, the null case is unreachable in
the dispatch loop because null is falsy. -/
def resolvedPreventDefault : StreamActionConfig → Bool
  | .str _ => true
  | .obj _ pd => pd.getD true
  | .nullVal => true
  | .invalid _ => true

/-- The typeof config equals string test of the validation loops. -/
def typeofIsString : StreamActionConfig → Bool
  | .str _ => true
  | _ => false

/-- The typeof config equals object test of the validation loops; in JS
typeof null is the string object, so null passes it. -/
def typeofIsObject : StreamActionConfig → Bool
  | .obj _ _ => true
  | .nullVal => true
  | _ => false

/-- Reading the method property of a configuration value: an object
yields its method field, null throws a TypeError (the error case), and
any other value yields undefined without throwing. -/
def configMethodProp : StreamActionConfig → Except String (Option String)
  | .obj m _ => .ok m
  | .nullVal => .error "TypeError: Cannot read properties of null (reading method)"
  | .str _ => .ok none
  | .invalid _ => .ok none

/-- The payload node of a stream event, an element-like object with an
attribute list and inner content. -/
structure PayloadNode where
  attrs : List (String × String) := []
  innerHTML : String := ""
deriving DecidableEq

/-- getAttribute on the payload node: the attribute value, or null. -/
def PayloadNode.getAttribute (n : PayloadNode) (name : String) : Option String :=
  objGet n.attrs name

/-- The detail object carried by a turbo:before-stream-render event.
The legacy wire shape populates action and render; the newer wire shape
populates only newStream. -/
structure EventDetail where
  action : Option String := none
  render : Option PayloadNode := none
  newStream : Option PayloadNode := none
deriving DecidableEq

/-- A property value found on a controller under a method name: a
function (which throws or returns when invoked), a truthy non-function,
or a falsy value. An absent property behaves like a falsy one. -/
inductive PropValue where
  | func (throws : Bool)
  | truthyNonFunc
  | falsy
deriving DecidableEq

/-- A registered controller as the dispatch loop sees it: its identity,
its class-level static streamActions map (undefined when the class does
not declare one), its instance-level _customStreamActions map (undefined
unless set by the custom entry point), its named properties, and whether
its element is connected to the document. -/
structure Controller where
  id : Nat
  streamActions : Option (List (String × StreamActionConfig)) := none
  customStreamActions : Option (List (String × StreamActionConfig)) := none
  props : List (String × PropValue) := []
  elementConnected : Bool := true
deriving DecidableEq

/-- The merged action object built in the dispatch loop:
spread of ctor.streamActions (or empty) then _customStreamActions
(or empty), so custom bindings overwrite static ones. -/
def effectiveActions (c : Controller) : List (String × StreamActionConfig) :=
  c.streamActions.getD [] ++ c.customStreamActions.getD []

/-- A console diagnostic recorded during execution, tagged by level and
carrying the template text of the emitting call site. -/
inductive Diagnostic where
  | warn (msg : String)
  | error (msg : String)
deriving DecidableEq

/-- Whether diagnostics are emitted: process exists and
process.env.NODE_ENV is exactly the string development. The NODE_ENV
value is embedded as Option String, none covering an absent variable or
an absent process object. -/
def devMode (nodeEnv : Option String) : Bool :=
  nodeEnv == some "development"

/-- The observable outcome of one handleStreamRender run: whether
preventDefault was called on the event, the sequence of handler
invocations as (controller id, method name) pairs, and the diagnostics
emitted. -/
structure DispatchResult where
  prevented : Bool
  invocations : List (Nat × String)
  diags : List Diagnostic
deriving DecidableEq

/-- Invoking a handler function: it either returns or throws. -/
def callHandler (throws : Bool) : Except String Unit :=
  if throws then .error "handler exception" else .ok ()

/-- One iteration of the dispatch loop of handleStreamRender for a single
controller, given the action name of the event. Mirrors the body of the
for-of loop: merge the action maps, look up the action, extract method
name and preventDefault, call preventDefault before locating the method,
then locate and (when it is a function on a connected element) invoke the
method inside a try/catch, recording development-mode diagnostics for a
missing method, a non-function property, or a thrown exception. -/
def handleStreamRenderStep (env : Option String) (a : String)
    (st : DispatchResult) (c : Controller) : DispatchResult :=
  match objGet (effectiveActions c) a with
  | none => st
  | some config =>
    if configTruthy config then
      let methodName := resolvedMethodName config
      let mn := methodName.getD "undefined"
      let st1 := if resolvedPreventDefault config then { st with prevented := true } else st
      match objGet c.props mn with
      | some (.func throws) =>
        if c.elementConnected then
          match callHandler throws with
          | .ok _ => { st1 with invocations := st1.invocations ++ [(c.id, mn)] }
          | .error _ =>
            { st1 with
              invocations := st1.invocations ++ [(c.id, mn)],
              diags := st1.diags ++
                (if devMode env then
                  [Diagnostic.error ("Error in stream action handler " ++ mn ++ ":")]
                 else []) }
        else st1
      | some .truthyNonFunc =>
        { st1 with diags := st1.diags ++
            (if devMode env then
              [Diagnostic.warn ("Stream action " ++ mn ++ " is not a function on controller")]
             else []) }
      | some .falsy =>
        { st1 with diags := st1.diags ++
            (if devMode env then
              [Diagnostic.warn ("Stream action method " ++ mn ++ " not found on controller")]
             else []) }
      | none =>
        { st1 with diags := st1.diags ++
            (if devMode env then
              [Diagnostic.warn ("Stream action method " ++ mn ++ " not found on controller")]
             else []) }
    else st

/-- The early-return result of handleStreamRender when the destructured
action or render field of the detail is falsy: a development-mode warning
and nothing else. -/
def invalidDetailResult (env : Option String) : DispatchResult :=
  { prevented := false, invocations := [],
    diags := if devMode env then
      [Diagnostic.warn "Invalid turbo:before-stream-render event detail:"] else [] }

/-- Embedding of handleStreamRender: destructure action and render from
the event detail; when either is falsy, warn (in development mode) and
return; otherwise run the dispatch loop over the registered controllers.
The newStream field of the detail is never read. -/
def handleStreamRender (env : Option String) (controllers : List Controller)
    (detail : EventDetail) : DispatchResult :=
  match detail.action, detail.render with
  | some a, some _ =>
    if a.isEmpty then invalidDetailResult env
    else controllers.foldl (handleStreamRenderStep env a)
      { prevented := false, invocations := [], diags := [] }
  | _, _ => invalidDetailResult env

/-- Embedding of the getJSON accessor of the streamData object built per
dispatch: read the attribute; a falsy value (absent or empty) yields the
fallback; otherwise parse it, a parse exception being caught and turned
into the fallback. The platform JSON parser is a parameter, embedded as a
function into Except whose error case stands for a thrown exception. -/
def getJSON {α : Type} (parse : String → Except String α) (r : PayloadNode)
    (name : String) (fallback : Option α := none) : Option α :=
  match r.getAttribute name with
  | none => fallback
  | some value =>
    if value.isEmpty then fallback
    else
      match parse value with
      | .ok j => some j
      | .error _ => fallback

/-- Whether a character list starts with another character list. -/
def charListStarts : List Char → List Char → Bool
  | _, [] => true
  | [], _ :: _ => false
  | h :: t, n :: m => h == n && charListStarts t m

/-- Whether a character list occurs contiguously inside another; used to
state that a diagnostic message does or does not mention a name. -/
def charListOccurs (needle : List Char) : List Char → Bool
  | [] => needle.isEmpty
  | h :: t => charListStarts (h :: t) needle || charListOccurs needle t

/-- Whether one string occurs contiguously inside another. -/
def strOccurs (needle hay : String) : Bool :=
  charListOccurs needle.toList hay.toList

/-- State of the singleton StreamActionRegistry: the set of registered
controller identities, the isListening flag, and counters for how many
times addEventListener and removeEventListener have been called on the
document. -/
structure RegistryState where
  controllers : Finset Nat
  isListening : Bool
  subCount : Nat
  unsubCount : Nat
deriving DecidableEq

/-- The fresh singleton state created on first access. -/
def freshRegistry : RegistryState :=
  { controllers := ∅, isListening := false, subCount := 0, unsubCount := 0 }

/-- register: add the controller to the set; when not yet listening,
subscribe the document listener and set the flag. -/
def register (s : RegistryState) (c : Nat) : RegistryState :=
  let s1 := { s with controllers := insert c s.controllers }
  if !s1.isListening then
    { s1 with isListening := true, subCount := s1.subCount + 1 }
  else s1

/-- unregister: delete the controller from the set; when the set becomes
empty while listening, unsubscribe the document listener and clear the
flag. -/
def unregister (s : RegistryState) (c : Nat) : RegistryState :=
  let s1 := { s with controllers := s.controllers.erase c }
  if s1.controllers.card = 0 && s1.isListening then
    { s1 with isListening := false, unsubCount := s1.unsubCount + 1 }
  else s1

/-- getControllerCount observer. -/
def getControllerCount (s : RegistryState) : Nat :=
  s.controllers.card

/-- isListeningForEvents observer. -/
def isListeningForEvents (s : RegistryState) : Bool :=
  s.isListening

/-- One registry mutation. -/
inductive RegOp where
  | reg (c : Nat)
  | unreg (c : Nat)
deriving DecidableEq

/-- Apply one registry mutation. -/
def applyOp (s : RegistryState) : RegOp → RegistryState
  | .reg c => register s c
  | .unreg c => unregister s c

/-- Run a sequence of registry mutations from a starting state. -/
def runOps (s : RegistryState) (ops : List RegOp) : RegistryState :=
  ops.foldl applyOp s

/-- The first per-entry validation check of the entry points: a value
that is neither a string nor an object (by typeof) draws an invalid
warning. The custom flag selects the wording of the custom entry
point. -/
def entryInvalidCheck (custom : Bool) (p : String × StreamActionConfig) :
    List Diagnostic :=
  if !typeofIsString p.2 && !typeofIsObject p.2 then
    [Diagnostic.warn
      ((if custom then "Invalid custom stream action config for "
        else "Invalid stream action config for ") ++ p.1 ++ ":")]
  else []

/-- The second per-entry validation check: for a typeof-object value the
method property is read (throwing a TypeError when the value is null)
and a falsy method draws a missing-method warning. -/
def entryMissingMethodCheck (custom : Bool) (p : String × StreamActionConfig) :
    Except String (List Diagnostic) :=
  if typeofIsObject p.2 then
    match configMethodProp p.2 with
    | .error e => .error e
    | .ok m =>
      .ok (if truthyOptStr m then []
           else
             [Diagnostic.warn
               ((if custom then "Custom stream action " else "Stream action ")
                 ++ p.1 ++ " is missing method property:")])
  else .ok []

/-- The development-mode validation loop over a declared action map:
warnings accumulate per entry until a TypeError is thrown by the
missing-method check on a null entry, which aborts the loop. The result
pairs the warnings emitted before any throw with the thrown error, if
any. -/
def validationRun (custom : Bool) :
    List (String × StreamActionConfig) → List Diagnostic × Option String
  | [] => ([], none)
  | p :: rest =>
    let w1 := entryInvalidCheck custom p
    match entryMissingMethodCheck custom p with
    | .error e => (w1, some e)
    | .ok w2 =>
      let (wrest, err) := validationRun custom rest
      (w1 ++ w2 ++ wrest, err)

/-- The observable outcome of one entry-point call: the diagnostics
emitted, whether wireStreamActions was reached, and the uncaught
exception that escaped the call, if any. -/
structure EntryPointOutcome where
  diags : List Diagnostic
  wired : Bool
  thrown : Option String
deriving DecidableEq

/-- Embedding of useStreamActions, abstracted over the controller: the
input is the class-level static streamActions map (none when absent).
When the map is present, development mode first runs the validation
loop, whose TypeError on a null entry escapes the call before
wireStreamActions is reached; otherwise (or in any other mode) the
controller is wired. An absent map only warns in development mode. -/
def useStreamActions (env : Option String)
    (streamActions : Option (List (String × StreamActionConfig))) :
    EntryPointOutcome :=
  match streamActions with
  | some sa =>
    if devMode env then
      match validationRun false sa with
      | (ws, none) => { diags := ws, wired := true, thrown := none }
      | (ws, some e) => { diags := ws, wired := false, thrown := some e }
    else { diags := [], wired := true, thrown := none }
  | none =>
    { diags := if devMode env then
        [Diagnostic.warn "useStreamActions called on controller without static streamActions property:"]
      else [],
      wired := false, thrown := none }

/-- The actions argument of useCustomStreamActions as a runtime JS value:
an object map, a falsy value (null or undefined), or a truthy
non-object. -/
inductive ActionsArg where
  | obj (m : List (String × StreamActionConfig))
  | nullish
  | nonObjValue
deriving DecidableEq

/-- Embedding of useCustomStreamActions, abstracted over the controller:
a falsy or non-object argument is rejected with a development-mode
warning and no binding; an object map is validated in development mode
(a TypeError on a null entry escaping before wiring, as in
useStreamActions) and wired otherwise. -/
def useCustomStreamActions (env : Option String) (actions : ActionsArg) :
    EntryPointOutcome :=
  match actions with
  | .obj m =>
    if devMode env then
      match validationRun true m with
      | (ws, none) => { diags := ws, wired := true, thrown := none }
      | (ws, some e) => { diags := ws, wired := false, thrown := some e }
    else { diags := [], wired := true, thrown := none }
  | _ =>
    { diags := if devMode env then
        [Diagnostic.warn "useCustomStreamActions called with invalid actions:"]
      else [],
      wired := false, thrown := none }

/-- Whether a controller's resolved descriptor for an action requests
default suppression: the action resolves to a truthy configuration whose
extracted preventDefault flag is true. -/
def requestsSuppression (c : Controller) (a : String) : Bool :=
  match objGet (effectiveActions c) a with
  | some config => configTruthy config && resolvedPreventDefault config
  | none => false

/-- The invocations one loop iteration contributes for a controller:
one call when the action resolves to a truthy configuration whose method
is a function and whose element is connected, none otherwise. -/
def stepInvocations (c : Controller) (a : String) : List (Nat × String) :=
  match objGet (effectiveActions c) a with
  | some config =>
    if configTruthy config then
      let mn := (resolvedMethodName config).getD "undefined"
      match objGet c.props mn with
      | some (.func _) => if c.elementConnected then [(c.id, mn)] else []
      | _ => []
    else []
  | none => []

/-- The diagnostics one loop iteration contributes for a controller;
all of them are gated on development mode. -/
def stepDiags (env : Option String) (c : Controller) (a : String) : List Diagnostic :=
  if devMode env then
    match objGet (effectiveActions c) a with
    | some config =>
      if configTruthy config then
        let mn := (resolvedMethodName config).getD "undefined"
        match objGet c.props mn with
        | some (.func throws) =>
          if c.elementConnected && throws then
            [Diagnostic.error ("Error in stream action handler " ++ mn ++ ":")]
          else []
        | some .truthyNonFunc =>
          [Diagnostic.warn ("Stream action " ++ mn ++ " is not a function on controller")]
        | _ =>
          [Diagnostic.warn ("Stream action method " ++ mn ++ " not found on controller")]
      else []
    | none => []
  else []

theorem handleStreamRenderStep_decomp (env : Option String) (a : String)
    (st : DispatchResult) (c : Controller) :
    handleStreamRenderStep env a st c =
      { prevented := st.prevented || requestsSuppression c a,
        invocations := st.invocations ++ stepInvocations c a,
        diags := st.diags ++ stepDiags env c a } := by
  unfold handleStreamRenderStep requestsSuppression stepInvocations stepDiags
  rcases h : objGet (effectiveActions c) a with _ | config
  · simp
  · by_cases ht : configTruthy config
    · simp only [ht, if_true]
      rcases hp : objGet c.props ((resolvedMethodName config).getD "undefined") with _ | pv
      · by_cases hpd : resolvedPreventDefault config <;> simp [hpd]
      · rcases pv with throws | _ | _
        · by_cases hc : c.elementConnected
          · cases throws <;> by_cases hpd : resolvedPreventDefault config <;>
              simp [hpd, hc, callHandler]
          · simp only [Bool.not_eq_true] at hc
            cases throws <;> by_cases hpd : resolvedPreventDefault config <;>
              simp [hpd, hc, callHandler]
        · by_cases hpd : resolvedPreventDefault config <;> simp [hpd]
        · by_cases hpd : resolvedPreventDefault config <;> simp [hpd]
    · simp only [Bool.not_eq_true] at ht
      simp [ht]

theorem dispatch_foldl_decomp (env : Option String) (a : String)
    (cs : List Controller) (st : DispatchResult) :
    cs.foldl (handleStreamRenderStep env a) st =
      { prevented := st.prevented || cs.any (fun c => requestsSuppression c a),
        invocations := st.invocations ++ cs.flatMap (fun c => stepInvocations c a),
        diags := st.diags ++ cs.flatMap (fun c => stepDiags env c a) } := by
  induction cs generalizing st with
  | nil => simp
  | cons c rest ih =>
    simp only [List.foldl_cons, ih, handleStreamRenderStep_decomp, List.any_cons,
      List.flatMap_cons, List.append_assoc, Bool.or_assoc]

/-- The normal-path result of handleStreamRender in decomposed form. -/
theorem handleStreamRender_decomp (env : Option String) (cs : List Controller)
    (a : String) (r : PayloadNode) (ns : Option PayloadNode) (ha : ¬a.isEmpty) :
    handleStreamRender env cs { action := some a, render := some r, newStream := ns } =
      { prevented := cs.any (fun c => requestsSuppression c a),
        invocations := cs.flatMap (fun c => stepInvocations c a),
        diags := cs.flatMap (fun c => stepDiags env c a) } := by
  simp [handleStreamRender, ha, dispatch_foldl_decomp]

theorem objGet_append {α : Type} (s c : List (String × α)) (k : String) :
    objGet (s ++ c) k = if (objGet c k).isSome then objGet c k else objGet s k := by
  unfold objGet
  rw [List.reverse_append, List.find?_append]
  rcases h : c.reverse.find? (fun p => p.1 == k) with _ | v <;> simp [Option.or, h]

theorem regInv_register (s : RegistryState) (c : Nat)
    (_h : s.isListening = true ↔ s.controllers ≠ ∅) :
    (register s c).isListening = true ↔ (register s c).controllers ≠ ∅ := by
  have hne : insert c s.controllers ≠ ∅ :=
    Finset.ne_empty_of_mem (Finset.mem_insert_self c s.controllers)
  unfold register
  cases hl : s.isListening <;> simp [hl, hne]

theorem regInv_unregister (s : RegistryState) (c : Nat)
    (h : s.isListening = true ↔ s.controllers ≠ ∅) :
    (unregister s c).isListening = true ↔ (unregister s c).controllers ≠ ∅ := by
  unfold unregister
  by_cases hz : (s.controllers.erase c).card = 0
  · have hempty : s.controllers.erase c = ∅ := Finset.card_eq_zero.mp hz
    cases hl : s.isListening <;> simp [hz, hl, hempty]
  · have hne : s.controllers.erase c ≠ ∅ := by
      intro h0
      exact hz (by rw [h0]; simp)
    have hmem : s.controllers ≠ ∅ := by
      intro h0
      apply hne
      rw [h0, Finset.erase_empty]
    have hl : s.isListening = true := h.mpr hmem
    simp [hz, hl, hne]

theorem regInv_runOps (ops : List RegOp) (s : RegistryState)
    (h : s.isListening = true ↔ s.controllers ≠ ∅) :
    (runOps s ops).isListening = true ↔ (runOps s ops).controllers ≠ ∅ := by
  induction ops generalizing s with
  | nil => exact h
  | cons op rest ih =>
    rcases op with c | c
    · exact ih (register s c) (regInv_register s c h)
    · exact ih (unregister s c) (regInv_unregister s c h)

/-- C3: starting from the fresh singleton state, after any sequence of
register and unregister calls the isListening flag is true iff the set of
registered controllers is non-empty; from any such reachable state,
registering into an empty set subscribes the document listener (and only
then), and unregistering the last member unsubscribes it (and only
then). -/
theorem c3_listening_iff_nonempty_and_transitions (ops : List RegOp) :
    (isListeningForEvents (runOps freshRegistry ops) = true ↔
      (runOps freshRegistry ops).controllers ≠ ∅) ∧
    (∀ c, (runOps freshRegistry ops).controllers = ∅ →
      (register (runOps freshRegistry ops) c).subCount =
        (runOps freshRegistry ops).subCount + 1 ∧
      isListeningForEvents (register (runOps freshRegistry ops) c) = true) ∧
    (∀ c, (runOps freshRegistry ops).controllers ≠ ∅ →
      (register (runOps freshRegistry ops) c).subCount =
        (runOps freshRegistry ops).subCount) ∧
    (∀ c, (runOps freshRegistry ops).controllers.erase c = ∅ →
      (runOps freshRegistry ops).controllers ≠ ∅ →
      (unregister (runOps freshRegistry ops) c).unsubCount =
        (runOps freshRegistry ops).unsubCount + 1 ∧
      isListeningForEvents (unregister (runOps freshRegistry ops) c) = false) ∧
    (∀ c, (runOps freshRegistry ops).controllers.erase c ≠ ∅ →
      (unregister (runOps freshRegistry ops) c).unsubCount =
        (runOps freshRegistry ops).unsubCount) := by
  have hinv := regInv_runOps ops freshRegistry (by simp [freshRegistry])
  set s := runOps freshRegistry ops with hs
  refine ⟨hinv, ?_, ?_, ?_, ?_⟩
  · intro c hempty
    have hl : s.isListening ≠ true := fun ht => (hinv.mp ht) hempty
    simp only [Bool.not_eq_true] at hl
    constructor <;> simp [register, isListeningForEvents, hl]
  · intro c hne
    have hl : s.isListening = true := hinv.mpr hne
    simp [register, hl]
  · intro c herase hne
    have hl : s.isListening = true := hinv.mpr hne
    have hz : (s.controllers.erase c).card = 0 := by
      rw [herase]; simp
    constructor <;> simp [unregister, isListeningForEvents, hl, hz]
  · intro c herase
    have hz : (s.controllers.erase c).card ≠ 0 := by
      intro h0
      exact herase (Finset.card_eq_zero.mp h0)
    simp [unregister, hz]

/-- Witness for C3 at a concrete operation sequence: after registering
controller 1 and unregistering it, the registry is not listening, and a
further register subscribes the listener a second time. -/
theorem c3_witness :
    (isListeningForEvents (runOps freshRegistry [RegOp.reg 1, RegOp.unreg 1]) = true ↔
      (runOps freshRegistry [RegOp.reg 1, RegOp.unreg 1]).controllers ≠ ∅) ∧
    (register (runOps freshRegistry [RegOp.reg 1, RegOp.unreg 1]) 2).subCount =
      (runOps freshRegistry [RegOp.reg 1, RegOp.unreg 1]).subCount + 1 := by
  have h := c3_listening_iff_nonempty_and_transitions [RegOp.reg 1, RegOp.unreg 1]
  exact ⟨h.1, (h.2.1 2 (by decide)).1⟩

/-- C6: in any registry state satisfying the listening invariant,
registering an already-present controller changes neither the controller
count nor the subscription count nor the listening flag. -/
theorem c6_register_idempotent (s : RegistryState) (c : Nat)
    (hinv : s.isListening = true ↔ s.controllers ≠ ∅)
    (hc : c ∈ s.controllers) :
    getControllerCount (register s c) = getControllerCount s ∧
    (register s c).subCount = s.subCount ∧
    isListeningForEvents (register s c) = isListeningForEvents s := by
  have hne : s.controllers ≠ ∅ := Finset.ne_empty_of_mem hc
  have hl : s.isListening = true := hinv.mpr hne
  have hins : insert c s.controllers = s.controllers := Finset.insert_eq_self.mpr hc
  simp [register, getControllerCount, isListeningForEvents, hl, hins]

/-- Witness for C6: registering controller 5 into a listening registry
already holding it leaves the count, the subscription count and the flag
unchanged. -/
theorem c6_witness :
    getControllerCount (register ⟨{5}, true, 1, 0⟩ 5) = getControllerCount ⟨{5}, true, 1, 0⟩ ∧
    (register ⟨{5}, true, 1, 0⟩ 5).subCount = 1 := by
  have h := c6_register_idempotent ⟨{5}, true, 1, 0⟩ 5 (by decide) (by decide)
  exact ⟨h.1, h.2.1⟩

theorem count_flatMap_of_ids {f : Controller → List (Nat × String)}
    (hf : ∀ c p, p ∈ f c → p.1 = c.id) (cs : List Controller)
    (hnodup : (cs.map Controller.id).Nodup) (c : Controller) (hmem : c ∈ cs)
    (k : String) :
    (cs.flatMap f).count (c.id, k) = (f c).count (c.id, k) := by
  induction cs with
  | nil => cases hmem
  | cons d rest ih =>
    simp only [List.flatMap_cons, List.count_append]
    simp only [List.map_cons, List.nodup_cons] at hnodup
    rcases List.mem_cons.mp hmem with hcd | hcr
    · subst hcd
      have hz : (rest.flatMap f).count (c.id, k) = 0 := by
        apply List.count_eq_zero.mpr
        intro hin
        rcases List.mem_flatMap.mp hin with ⟨e, he, hpe⟩
        have : c.id = e.id := hf e (c.id, k) hpe
        exact hnodup.1 (this ▸ List.mem_map_of_mem Controller.id he)
      omega
    · have hz : (f d).count (c.id, k) = 0 := by
        apply List.count_eq_zero.mpr
        intro hin
        have hid : c.id = d.id := hf d (c.id, k) hin
        exact hnodup.1 (hid ▸ List.mem_map_of_mem Controller.id hcr)
      rw [hz, ih hnodup.2 hcr]
      omega

theorem stepInvocations_ids (c : Controller) (a : String) (p : Nat × String)
    (hp : p ∈ stepInvocations c a) : p.1 = c.id := by
  unfold stepInvocations at hp
  rcases h : objGet (effectiveActions c) a with _ | config <;> rw [h] at hp
  · cases hp
  · by_cases ht : configTruthy config
    · simp only [ht, if_true] at hp
      rcases h2 : objGet c.props ((resolvedMethodName config).getD "undefined")
          with _ | pv <;> rw [h2] at hp
      · cases hp
      · rcases pv with th | _ | _
        · by_cases hc : c.elementConnected <;> simp [hc] at hp
          simp [hp]
        · cases hp
        · cases hp
    · simp only [Bool.not_eq_true] at ht
      simp [ht] at hp

/-- C2: during one dispatch over any registered controller set with
distinct identities, every controller whose resolved descriptor names a
function method on a connected element is invoked exactly once, whatever
other handlers do; a handler that throws has its exception caught at the
call site and, in development mode, logged with the method name. The
dispatch function is total, so no handler exception ever reaches the
event producer. -/
theorem c2_handler_exception_isolated (env : Option String) (cs : List Controller)
    (a : String) (r : PayloadNode) (ns : Option PayloadNode) (c : Controller)
    (cfg : StreamActionConfig) (mn : String)
    (ha : ¬a.isEmpty)
    (hnodup : (cs.map Controller.id).Nodup)
    (hmem : c ∈ cs)
    (hcfg : objGet (effectiveActions c) a = some cfg)
    (ht : configTruthy cfg = true)
    (hmn : (resolvedMethodName cfg).getD "undefined" = mn)
    (hfn : ∃ th, objGet c.props mn = some (.func th))
    (hconn : c.elementConnected = true) :
    ((handleStreamRender env cs
        { action := some a, render := some r, newStream := ns }).invocations.count
      (c.id, mn) = 1) ∧
    (∀ th, objGet c.props mn = some (.func th) → th = true → devMode env = true →
      Diagnostic.error ("Error in stream action handler " ++ mn ++ ":") ∈
        (handleStreamRender env cs
          { action := some a, render := some r, newStream := ns }).diags) := by
  rcases hfn with ⟨th, hfn⟩
  have hstep : stepInvocations c a = [(c.id, mn)] := by
    unfold stepInvocations
    rw [hcfg]
    simp [ht, hmn, hfn, hconn]
  rw [handleStreamRender_decomp env cs a r ns ha]
  constructor
  · rw [count_flatMap_of_ids (fun c2 p hp => stepInvocations_ids c2 a p hp)
      cs hnodup c hmem mn, hstep]
    simp
  · intro th2 hfn2 hth2 hdev
    apply List.mem_flatMap.mpr
    refine ⟨c, hmem, ?_⟩
    unfold stepDiags
    rw [hdev]
    simp only [if_true]
    rw [hcfg]
    simp only [ht, if_true, hmn]
    rw [hfn2, hth2]
    simp [hconn]

/-- Witness for C2: controller 0 declares action act mapped to a throwing
method boomM, controller 1 maps the same action to okM; dispatching act
in development mode invokes okM exactly once and logs the exception of
boomM with its method name. -/
theorem c2_witness :
    ((handleStreamRender (some "development")
        [{ id := 0, streamActions := some [("act", .str "boomM")],
           customStreamActions := none, props := [("boomM", .func true)],
           elementConnected := true },
         { id := 1, streamActions := some [("act", .str "okM")],
           customStreamActions := none, props := [("okM", .func false)],
           elementConnected := true }]
        { action := some "act", render := some { attrs := [], innerHTML := "" },
          newStream := none }).invocations.count (1, "okM") = 1) ∧
    (Diagnostic.error "Error in stream action handler boomM:" ∈
      (handleStreamRender (some "development")
        [{ id := 0, streamActions := some [("act", .str "boomM")],
           customStreamActions := none, props := [("boomM", .func true)],
           elementConnected := true },
         { id := 1, streamActions := some [("act", .str "okM")],
           customStreamActions := none, props := [("okM", .func false)],
           elementConnected := true }]
        { action := some "act", render := some { attrs := [], innerHTML := "" },
          newStream := none }).diags) := by
  have hY := c2_handler_exception_isolated (some "development")
    [{ id := 0, streamActions := some [("act", .str "boomM")],
       customStreamActions := none, props := [("boomM", .func true)],
       elementConnected := true },
     { id := 1, streamActions := some [("act", .str "okM")],
       customStreamActions := none, props := [("okM", .func false)],
       elementConnected := true }]
    "act" { attrs := [], innerHTML := "" } none
    { id := 1, streamActions := some [("act", .str "okM")],
      customStreamActions := none, props := [("okM", .func false)],
      elementConnected := true }
    (.str "okM") "okM" (by decide) (by decide) (by decide) (by decide) (by decide)
    rfl ⟨false, by decide⟩ rfl
  have hX := c2_handler_exception_isolated (some "development")
    [{ id := 0, streamActions := some [("act", .str "boomM")],
       customStreamActions := none, props := [("boomM", .func true)],
       elementConnected := true },
     { id := 1, streamActions := some [("act", .str "okM")],
       customStreamActions := none, props := [("okM", .func false)],
       elementConnected := true }]
    "act" { attrs := [], innerHTML := "" } none
    { id := 0, streamActions := some [("act", .str "boomM")],
      customStreamActions := none, props := [("boomM", .func true)],
      elementConnected := true }
    (.str "boomM") "boomM" (by decide) (by decide) (by decide) (by decide) (by decide)
    rfl ⟨true, by decide⟩ rfl
  exact ⟨hY.1, hX.2 true (by decide) rfl rfl⟩

/-- Counterexample for C2 as stated: the source logs a thrown handler
exception with the method name only; the action name does not occur in
the logged message. Dispatching action explode to a throwing method
boomM emits exactly the message built from boomM, in which the substring
explode never occurs (splitting on it leaves the message whole). -/
theorem c2_counterexample :
    (handleStreamRender (some "development")
        [{ id := 0, streamActions := some [("explode", .str "boomM")],
           customStreamActions := none, props := [("boomM", .func true)],
           elementConnected := true }]
        { action := some "explode", render := some { attrs := [], innerHTML := "" },
          newStream := none }).diags
      = [Diagnostic.error "Error in stream action handler boomM:"] ∧
    strOccurs "explode" "Error in stream action handler boomM:" = false ∧
    strOccurs "boomM" "Error in stream action handler boomM:" = true ∧
    (handleStreamRender (some "development")
        [{ id := 0, streamActions := some [("explode", .str "boomM")],
           customStreamActions := none, props := [("boomM", .func true)],
           elementConnected := true }]
        { action := some "explode", render := some { attrs := [], innerHTML := "" },
          newStream := none }).invocations = [(0, "boomM")] := by
  refine ⟨by decide, by decide, by decide, by decide⟩

/-- C4: the merged action object of the dispatch loop is the right-biased
spread of the static map and the custom map, a custom binding fully
replacing a static binding with the same key; in particular a controller
with static map a to m1 and custom map a to m2 has only m2 invoked when
action a is dispatched, and m1 is never invoked. -/
theorem c4_override_precedence :
    (∀ (sMap cMap : List (String × StreamActionConfig)) (k : String),
      objGet (sMap ++ cMap) k =
        if (objGet cMap k).isSome then objGet cMap k else objGet sMap k) ∧
    (∀ (env : Option String) (idn : Nat) (props : List (String × PropValue))
      (a m1 m2 : String) (r : PayloadNode) (ns : Option PayloadNode) (th : Bool),
      ¬a.isEmpty → ¬m2.isEmpty → m1 ≠ m2 →
      objGet props m2 = some (.func th) →
      (handleStreamRender env
          [{ id := idn, streamActions := some [(a, .str m1)],
             customStreamActions := some [(a, .str m2)],
             props := props, elementConnected := true }]
          { action := some a, render := some r, newStream := ns }).invocations
        = [(idn, m2)] ∧
      (idn, m1) ∉
        (handleStreamRender env
          [{ id := idn, streamActions := some [(a, .str m1)],
             customStreamActions := some [(a, .str m2)],
             props := props, elementConnected := true }]
          { action := some a, render := some r, newStream := ns }).invocations) := by
  constructor
  · exact objGet_append
  · intro env idn props a m1 m2 r ns th ha hm2 hne hprop
    have hlook : objGet ([(a, StreamActionConfig.str m1)] ++ [(a, StreamActionConfig.str m2)]) a
        = some (.str m2) := by
      rw [objGet_append]
      simp [objGet]
    have hinv : (handleStreamRender env
        [{ id := idn, streamActions := some [(a, .str m1)],
           customStreamActions := some [(a, .str m2)],
           props := props, elementConnected := true }]
        { action := some a, render := some r, newStream := ns }).invocations
        = [(idn, m2)] := by
      rw [handleStreamRender_decomp _ _ _ _ _ ha]
      simp only [List.flatMap_cons, List.flatMap_nil, List.append_nil]
      unfold stepInvocations effectiveActions
      simp only [Option.getD_some]
      rw [hlook]
      simp [configTruthy, hm2, resolvedMethodName, hprop]
    refine ⟨hinv, ?_⟩
    rw [hinv]
    simp [hne]

/-- Witness for C4: with static map a to m1 and custom map a to m2, both
methods present, dispatching a invokes only m2. -/
theorem c4_witness :
    (handleStreamRender none
        [{ id := 3, streamActions := some [("a", .str "m1")],
           customStreamActions := some [("a", .str "m2")],
           props := [("m1", .func false), ("m2", .func false)],
           elementConnected := true }]
        { action := some "a", render := some { attrs := [], innerHTML := "" },
          newStream := none }).invocations = [(3, "m2")] ∧
    (3, "m1") ∉
      (handleStreamRender none
        [{ id := 3, streamActions := some [("a", .str "m1")],
           customStreamActions := some [("a", .str "m2")],
           props := [("m1", .func false), ("m2", .func false)],
           elementConnected := true }]
        { action := some "a", render := some { attrs := [], innerHTML := "" },
          newStream := none }).invocations := by
  have h := c4_override_precedence.2 none 3 [("m1", .func false), ("m2", .func false)]
    "a" "m1" "m2" { attrs := [], innerHTML := "" } none false
    (by decide) (by decide) (by decide) (by decide)
  exact h

/-- C5: for a well-formed envelope the default is suppressed iff some
registered controller's resolved descriptor requests suppression, and
the resolution of the suppress flag is: true for a bare-string
descriptor, true for an object descriptor omitting preventDefault, false
for an object descriptor with preventDefault false. -/
theorem c5_suppression_semantics (env : Option String) (cs : List Controller)
    (a : String) (r : PayloadNode) (ns : Option PayloadNode) (ha : ¬a.isEmpty) :
    ((handleStreamRender env cs
        { action := some a, render := some r, newStream := ns }).prevented = true ↔
      ∃ c ∈ cs, requestsSuppression c a = true) ∧
    (∀ m : String, resolvedPreventDefault (.str m) = true) ∧
    (∀ m : Option String, resolvedPreventDefault (.obj m none) = true) ∧
    (∀ m : Option String, resolvedPreventDefault (.obj m (some false)) = false) := by
  refine ⟨?_, fun m => rfl, fun m => rfl, fun m => rfl⟩
  rw [handleStreamRender_decomp env cs a r ns ha]
  exact List.any_eq_true

/-- Witness for C5: one controller with an object descriptor carrying
preventDefault false does not suppress, so the dispatch leaves the
default unsuppressed; a bare-string descriptor resolves to
suppression. -/
theorem c5_witness :
    ((handleStreamRender none
        [{ id := 0, streamActions := some [("x", .obj (some "h") (some false))],
           customStreamActions := none, props := [("h", .func false)],
           elementConnected := true }]
        { action := some "x", render := some { attrs := [], innerHTML := "" },
          newStream := none }).prevented = true ↔
      ∃ c ∈ [({ id := 0, streamActions := some [("x", .obj (some "h") (some false))],
                customStreamActions := none, props := [("h", .func false)],
                elementConnected := true } : Controller)],
        requestsSuppression c "x" = true) ∧
    resolvedPreventDefault (.str "h") = true := by
  have h := c5_suppression_semantics none
    [{ id := 0, streamActions := some [("x", .obj (some "h") (some false))],
       customStreamActions := none, props := [("h", .func false)],
       elementConnected := true }]
    "x" { attrs := [], innerHTML := "" } none (by decide)
  exact ⟨h.1, h.2.1 "h"⟩

/-- C1, evaluated on the code: an envelope of the newer wire shape,
whose newStream payload node carries action test_action matched by a
registered controller with a connected function method, is ignored by
handleStreamRender with the invalid-detail warning, because the handler
destructures only the legacy action and render fields and never reads
newStream. -/
theorem c1_newstream_shape_ignored :
    handleStreamRender (some "development")
        [{ id := 0, streamActions := some [("test_action", .str "handleTestAction")],
           customStreamActions := none,
           props := [("handleTestAction", .func false)], elementConnected := true }]
        { action := none, render := none,
          newStream := some { attrs := [("action", "test_action"),
                                        ("payload", "e2e_test_payload")],
                              innerHTML := "" } }
      = { prevented := false, invocations := [],
          diags := [Diagnostic.warn "Invalid turbo:before-stream-render event detail:"] } ∧
    PayloadNode.getAttribute
        { attrs := [("action", "test_action"), ("payload", "e2e_test_payload")],
          innerHTML := "" } "action"
      = some "test_action" := by
  refine ⟨by decide, by decide⟩

/-- Counterexample for C7 as stated: an envelope carrying a payload node
in its render field but an empty action name does not return silently; in
development mode the handler emits the invalid-detail warning (while
indeed consulting no component). -/
theorem c7_counterexample :
    (handleStreamRender (some "development")
        [{ id := 0, streamActions := some [("test_action", .str "onTest")],
           customStreamActions := none, props := [("onTest", .func false)],
           elementConnected := true }]
        { action := some "", render := some { attrs := [], innerHTML := "" },
          newStream := none })
      = { prevented := false, invocations := [],
          diags := [Diagnostic.warn "Invalid turbo:before-stream-render event detail:"] } := by
  decide

/-- C7 as amended: when the action name of the envelope is absent or
empty, the handler returns without consulting any component and without
suppressing the default, but it is silent only outside development mode;
in development mode it emits the same invalid-detail warning as a missing
payload node. -/
theorem c7_empty_action_amended (env : Option String) (cs : List Controller)
    (r : PayloadNode) (act : Option String) (ns : Option PayloadNode)
    (hact : truthyOptStr act = false) :
    handleStreamRender env cs { action := act, render := some r, newStream := ns }
      = invalidDetailResult env ∧
    (invalidDetailResult env).invocations = [] ∧
    (invalidDetailResult env).prevented = false ∧
    ((invalidDetailResult env).diags ≠ [] ↔ devMode env = true) := by
  have hmain : handleStreamRender env cs
      { action := act, render := some r, newStream := ns } = invalidDetailResult env := by
    rcases act with _ | s
    · rfl
    · have hs : s.isEmpty = true := by
        unfold truthyOptStr at hact
        simpa using hact
      simp [handleStreamRender, hs]

  refine ⟨hmain, rfl, rfl, ?_⟩
  unfold invalidDetailResult
  cases hd : devMode env <;> simp [hd]

/-- Witness for C7: in production mode an empty-action envelope with a
payload node yields the silent empty result; the diagnostic appears only
in development mode. -/
theorem c7_witness :
    handleStreamRender (some "production") []
        { action := some "", render := some { attrs := [], innerHTML := "" },
          newStream := none }
      = invalidDetailResult (some "production") ∧
    ((invalidDetailResult (some "production")).diags ≠ [] ↔
      devMode (some "production") = true) := by
  have h := c7_empty_action_amended (some "production") []
    { attrs := [], innerHTML := "" } (some "") none (by decide)
  exact ⟨h.1, h.2.2.2⟩

theorem stepDiags_of_not_dev (env : Option String) (c : Controller) (a : String)
    (h : devMode env = false) : stepDiags env c a = [] := by
  unfold stepDiags
  rw [h]
  rfl

theorem devMode_eq_development (env : Option String) (h : devMode env = true) :
    env = some "development" := by
  unfold devMode at h
  exact eq_of_beq h

theorem entryMissingMethodCheck_ok (custom : Bool) (p : String × StreamActionConfig)
    (hp : p.2 ≠ StreamActionConfig.nullVal) :
    ∃ w2, entryMissingMethodCheck custom p = .ok w2 := by
  rcases p with ⟨k, cfg⟩
  rcases cfg with s | ⟨m, pd⟩ | _ | t
  · exact ⟨[], rfl⟩
  · exact ⟨_, rfl⟩
  · exact absurd rfl hp
  · exact ⟨[], rfl⟩

theorem entryMissingMethodCheck_null (custom : Bool) (k : String) :
    entryMissingMethodCheck custom (k, StreamActionConfig.nullVal) =
      .error "TypeError: Cannot read properties of null (reading method)" := rfl

theorem validationRun_no_throw (custom : Bool) (l : List (String × StreamActionConfig))
    (h : ∀ p ∈ l, p.2 ≠ StreamActionConfig.nullVal) :
    (validationRun custom l).2 = none := by
  induction l with
  | nil => rfl
  | cons p rest ih =>
    have hp : p.2 ≠ StreamActionConfig.nullVal := h p (List.mem_cons_self p rest)
    rcases entryMissingMethodCheck_ok custom p hp with ⟨w2, hw2⟩
    have hrest := ih (fun q hq => h q (List.mem_cons_of_mem p hq))
    unfold validationRun
    rw [hw2]
    rcases hvr : validationRun custom rest with ⟨wrest, err⟩
    rw [hvr] at hrest
    simpa using hrest

theorem validationRun_throws (custom : Bool) (l : List (String × StreamActionConfig))
    (h : ∃ p ∈ l, p.2 = StreamActionConfig.nullVal) :
    (validationRun custom l).2 ≠ none := by
  induction l with
  | nil =>
    rcases h with ⟨p, hp, _⟩
    cases hp
  | cons p rest ih =>
    by_cases hnp : p.2 = StreamActionConfig.nullVal
    · rcases p with ⟨k, cfg⟩
      simp only at hnp
      subst hnp
      unfold validationRun
      rw [entryMissingMethodCheck_null]
      simp
    · rcases h with ⟨q, hq, hqnull⟩
      rcases List.mem_cons.mp hq with hqp | hqr
      · subst hqp
        exact absurd hqnull hnp
      · rcases entryMissingMethodCheck_ok custom p hnp with ⟨w2, hw2⟩
        have hrest := ih ⟨q, hqr, hqnull⟩
        unfold validationRun
        rw [hw2]
        rcases hvr : validationRun custom rest with ⟨wrest, err⟩
        rw [hvr] at hrest
        simpa using hrest

/-- Counterexample for C8 as stated: in the execution mode test, which is
not the recognized production mode, the malformed-envelope diagnostic is
suppressed while development mode emits it, so diagnostics are not
emitted in every non-production mode; moreover the mode does change
control flow: a null descriptor entry makes useStreamActions throw a
TypeError in development mode before the controller is wired, while in
production mode the same call wires it. -/
theorem c8_counterexample :
    (handleStreamRender (some "test") []
        { action := none, render := none, newStream := none }).diags = [] ∧
    some "test" ≠ (some "production" : Option String) ∧
    (handleStreamRender (some "development") []
        { action := none, render := none, newStream := none }).diags ≠ [] ∧
    (useStreamActions (some "development")
        (some [("a", StreamActionConfig.nullVal)])).wired = false ∧
    (useStreamActions (some "development")
        (some [("a", StreamActionConfig.nullVal)])).thrown
      = some "TypeError: Cannot read properties of null (reading method)" ∧
    (useStreamActions (some "production")
        (some [("a", StreamActionConfig.nullVal)])).wired = true := by
  refine ⟨by decide, by decide, by decide, by decide, by decide, by decide⟩

/-- C8 as amended: diagnostics of dispatch and of both registration entry
points, and exceptions escaping those entry points, occur only in the
recognized development mode; the mode changes neither invocations nor
suppression of dispatch, and for action maps free of null descriptor
entries it does not change wiring either; a null descriptor entry,
however, makes development-mode validation throw its TypeError before
wiring while every other mode wires the controller. -/
theorem c8_dev_mode_amended :
    (∀ (env : Option String) (cs : List Controller) (d : EventDetail),
      (handleStreamRender env cs d).diags ≠ [] → env = some "development") ∧
    (∀ (env : Option String) (cs : List Controller) (d : EventDetail),
      (handleStreamRender env cs d).invocations =
        (handleStreamRender (some "development") cs d).invocations ∧
      (handleStreamRender env cs d).prevented =
        (handleStreamRender (some "development") cs d).prevented) ∧
    (∀ (env : Option String) (sa : Option (List (String × StreamActionConfig))),
      ((useStreamActions env sa).diags ≠ [] → env = some "development") ∧
      ((useStreamActions env sa).thrown ≠ none → env = some "development")) ∧
    (∀ (env : Option String) (aa : ActionsArg),
      ((useCustomStreamActions env aa).diags ≠ [] → env = some "development") ∧
      ((useCustomStreamActions env aa).thrown ≠ none → env = some "development")) ∧
    (∀ (env : Option String) (l : List (String × StreamActionConfig)),
      (∀ p ∈ l, p.2 ≠ StreamActionConfig.nullVal) →
      (useStreamActions env (some l)).wired = true ∧
      (useStreamActions env (some l)).thrown = none ∧
      (useCustomStreamActions env (ActionsArg.obj l)).wired = true ∧
      (useCustomStreamActions env (ActionsArg.obj l)).thrown = none) ∧
    (∀ env : Option String,
      (useStreamActions env none).wired = false ∧
      (useCustomStreamActions env ActionsArg.nullish).wired = false ∧
      (useCustomStreamActions env ActionsArg.nonObjValue).wired = false) ∧
    (∀ (env : Option String) (l : List (String × StreamActionConfig)),
      (∃ p ∈ l, p.2 = StreamActionConfig.nullVal) → devMode env = false →
      (useStreamActions (some "development") (some l)).wired = false ∧
      (useStreamActions (some "development") (some l)).thrown ≠ none ∧
      (useStreamActions env (some l)).wired = true ∧
      (useStreamActions env (some l)).thrown = none ∧
      (useCustomStreamActions (some "development") (ActionsArg.obj l)).wired = false ∧
      (useCustomStreamActions env (ActionsArg.obj l)).wired = true) := by
  have hdevdev : devMode (some "development") = true := rfl
  refine ⟨?_, ?_, ?_, ?_, ?_, ?_, ?_⟩
  · intro env cs d hne
    by_cases hdev : devMode env = true
    · exact devMode_eq_development env hdev
    · exfalso
      apply hne
      simp only [Bool.not_eq_true] at hdev
      rcases d with ⟨act, rend, ns⟩
      rcases act with _ | a
      · simp [handleStreamRender, invalidDetailResult, hdev]
      · rcases rend with _ | r
        · simp [handleStreamRender, invalidDetailResult, hdev]
        · by_cases ha : a.isEmpty
          · simp [handleStreamRender, invalidDetailResult, ha, hdev]
          · rw [handleStreamRender_decomp env cs a r ns (by simpa using ha)]
            simp only
            apply List.flatMap_eq_nil_iff.mpr
            intro c _
            exact stepDiags_of_not_dev env c a hdev
  · intro env cs d
    rcases d with ⟨act, rend, ns⟩
    rcases act with _ | a
    · exact ⟨rfl, rfl⟩
    · rcases rend with _ | r
      · exact ⟨rfl, rfl⟩
      · by_cases ha : a.isEmpty
        · simp [handleStreamRender, invalidDetailResult, ha]
        · rw [handleStreamRender_decomp env cs a r ns (by simpa using ha),
            handleStreamRender_decomp (some "development") cs a r ns (by simpa using ha)]
          exact ⟨rfl, rfl⟩
  · intro env sa
    constructor <;>
      (intro hne
       by_cases hdev : devMode env = true
       · exact devMode_eq_development env hdev
       · simp only [Bool.not_eq_true] at hdev
         rcases sa with _ | m
         · simp [useStreamActions, hdev] at hne
         · simp [useStreamActions, hdev] at hne)
  · intro env aa
    constructor <;>
      (intro hne
       by_cases hdev : devMode env = true
       · exact devMode_eq_development env hdev
       · simp only [Bool.not_eq_true] at hdev
         rcases aa with m | _ | _ <;> simp [useCustomStreamActions, hdev] at hne)
  · intro env l hnull
    by_cases hdev : devMode env = true
    · have h1 := validationRun_no_throw false l hnull
      have h2 := validationRun_no_throw true l hnull
      rcases hv1 : validationRun false l with ⟨ws1, err1⟩
      rcases hv2 : validationRun true l with ⟨ws2, err2⟩
      rw [hv1] at h1
      rw [hv2] at h2
      simp only at h1 h2
      subst h1
      subst h2
      simp [useStreamActions, useCustomStreamActions, hdev, hv1, hv2]
    · simp only [Bool.not_eq_true] at hdev
      simp [useStreamActions, useCustomStreamActions, hdev]
  · intro env
    by_cases hdev : devMode env = true <;>
      [skip; simp only [Bool.not_eq_true] at hdev] <;>
      simp [useStreamActions, useCustomStreamActions, hdev]
  · intro env l hnull hdev
    have h1 := validationRun_throws false l hnull
    have h2 := validationRun_throws true l hnull
    rcases hv1 : validationRun false l with ⟨ws1, err1⟩
    rcases hv2 : validationRun true l with ⟨ws2, err2⟩
    rw [hv1] at h1
    rw [hv2] at h2
    simp only at h1 h2
    rcases err1 with _ | e1
    · exact absurd rfl h1
    rcases err2 with _ | e2
    · exact absurd rfl h2
    refine ⟨?_, ?_, ?_, ?_, ?_, ?_⟩ <;>
      simp [useStreamActions, useCustomStreamActions, hdevdev, hdev, hv1, hv2]

/-- Witness for C8: the development mode is recognized through the
suppression direction at a concrete diagnostic-producing input, the mode
test leaves invocations unchanged on that input, and a concrete
null-free one-entry map is wired without a throw in production mode. -/
theorem c8_witness :
    (some "development" : Option String) = some "development" ∧
    (handleStreamRender (some "test") []
        { action := none, render := none, newStream := none }).invocations =
      (handleStreamRender (some "development") []
        { action := none, render := none, newStream := none }).invocations ∧
    (useStreamActions (some "production")
        (some [("a", StreamActionConfig.str "m")])).wired = true := by
  refine ⟨?_, ?_, ?_⟩
  · exact c8_dev_mode_amended.1 (some "development") []
      { action := none, render := none, newStream := none } (by decide)
  · exact (c8_dev_mode_amended.2.1 (some "test") []
      { action := none, render := none, newStream := none }).1
  · exact (c8_dev_mode_amended.2.2.2.2.1 (some "production")
      [("a", StreamActionConfig.str "m")] (by decide)).1

/-- C9: getJSON of the attribute view returns the fallback when the
attribute is absent, empty or fails to parse, and the parsed value when
parsing succeeds; a parse exception is absorbed into the fallback for
every possible behaviour of the platform parser, so getJSON never
raises. -/
theorem c9_getJSON_fallback {α : Type} (parse : String → Except String α)
    (r : PayloadNode) (name : String) (fb : Option α) :
    (r.getAttribute name = none → getJSON parse r name fb = fb) ∧
    (∀ v, r.getAttribute name = some v → v.isEmpty = true →
      getJSON parse r name fb = fb) ∧
    (∀ v e, r.getAttribute name = some v → v.isEmpty = false → parse v = .error e →
      getJSON parse r name fb = fb) ∧
    (∀ v j, r.getAttribute name = some v → v.isEmpty = false → parse v = .ok j →
      getJSON parse r name fb = some j) := by
  refine ⟨?_, ?_, ?_, ?_⟩
  · intro h
    simp [getJSON, h]
  · intro v h hv
    simp [getJSON, h, hv]
  · intro v e h hv hp
    simp [getJSON, h, hv, hp]
  · intro v j h hv hp
    simp [getJSON, h, hv, hp]

/-- Witness for C9 at the documented scenario: an attribute cfg holding
the non-parsable text not-json yields the configured fallback under a
parser that throws on it, and an absent attribute yields the fallback as
well. -/
theorem c9_witness :
    getJSON (fun s => if s = "42" then Except.ok 42 else Except.error "SyntaxError")
        { attrs := [("cfg", "not-json")], innerHTML := "" } "cfg" (some 7) = some 7 ∧
    getJSON (fun s => if s = "42" then Except.ok 42 else Except.error "SyntaxError")
        { attrs := [("cfg", "not-json")], innerHTML := "" } "missing" (some 7) = some 7 := by
  have h := c9_getJSON_fallback
    (fun s => if s = "42" then Except.ok 42 else Except.error "SyntaxError")
    { attrs := [("cfg", "not-json")], innerHTML := "" } "cfg" (some 7)
  have h2 := c9_getJSON_fallback
    (fun s => if s = "42" then Except.ok 42 else Except.error "SyntaxError")
    { attrs := [("cfg", "not-json")], innerHTML := "" } "missing" (some 7)
  refine ⟨h.2.2.1 "not-json" "SyntaxError" (by decide) (by decide) (by rfl),
    h2.1 (by decide)⟩

/-- C10: when a controller's resolved descriptor for the dispatched
action requests suppression, preventDefault is called before the method
is located, so the default is suppressed even when the named method is
absent, not invokable, or the element is disconnected, and no invocation
happens. -/
theorem c10_prevent_before_method_lookup (env : Option String) (c : Controller)
    (a : String) (cfg : StreamActionConfig) (r : PayloadNode) (ns : Option PayloadNode)
    (ha : ¬a.isEmpty)
    (hcfg : objGet (effectiveActions c) a = some cfg)
    (ht : configTruthy cfg = true)
    (hpd : resolvedPreventDefault cfg = true)
    (hnofn : ∀ th, objGet c.props ((resolvedMethodName cfg).getD "undefined") =
      some (.func th) → c.elementConnected = false) :
    (handleStreamRender env [c]
        { action := some a, render := some r, newStream := ns }).prevented = true ∧
    (handleStreamRender env [c]
        { action := some a, render := some r, newStream := ns }).invocations = [] := by
  rw [handleStreamRender_decomp env [c] a r ns ha]
  constructor
  · simp only [List.any_cons, List.any_nil, Bool.or_false]
    unfold requestsSuppression
    rw [hcfg]
    simp [ht, hpd]
  · simp only [List.flatMap_cons, List.flatMap_nil, List.append_nil]
    unfold stepInvocations
    rw [hcfg]
    simp only [ht, if_true]
    rcases h2 : objGet c.props ((resolvedMethodName cfg).getD "undefined") with _ | pv
    · rfl
    · rcases pv with th | _ | _
      · have := hnofn th h2
        simp [this]
      · rfl
      · rfl

/-- Witness for C10: a bare-string descriptor whose method is missing
from the controller still gets the default suppressed and produces no
invocation. -/
theorem c10_witness :
    (handleStreamRender (some "production")
        [{ id := 0, streamActions := some [("x", .str "missingMethod")],
           customStreamActions := none, props := [], elementConnected := true }]
        { action := some "x", render := some { attrs := [], innerHTML := "" },
          newStream := none }).prevented = true ∧
    (handleStreamRender (some "production")
        [{ id := 0, streamActions := some [("x", .str "missingMethod")],
           customStreamActions := none, props := [], elementConnected := true }]
        { action := some "x", render := some { attrs := [], innerHTML := "" },
          newStream := none }).invocations = [] := by
  exact c10_prevent_before_method_lookup (some "production")
    { id := 0, streamActions := some [("x", .str "missingMethod")],
      customStreamActions := none, props := [], elementConnected := true }
    "x" (.str "missingMethod") { attrs := [], innerHTML := "" } none
    (by decide) (by decide) (by decide) (by decide) (by decide)

end StreamActionsLib
